import Mathlib

/-
Verification of the two serverless HTTP handlers of mcp-server-motherduck:
the secured handler in src/api/index.js and the unsecured handler
(src/unnamed/part_000).  Both read credentials from the process
environment and delegate to the external function startMotherDuckMCP;
the secured one first performs a bearer-token check.

JavaScript semantics embedded here:
  - `process.env.X` is an `Option String` (`none` = variable unset);
  - `x || y` on strings takes `y` when `x` is undefined or the empty
    string (the only falsy string);
  - `s.replace(pat, repl)` with a string pattern replaces the FIRST
    occurrence of `pat` in `s` (and leaves `s` unchanged when `pat`
    does not occur);
  - `s.trim()` strips whitespace from both ends;
  - `a !== b` between a string and undefined is always true.
The delegate is modelled as a function from the argument record
`{req, token, database}` to a result that either completes the response
or throws an error carrying a message; the mutable `res` object is
modelled by the handler's final outcome.
-/

namespace MotherDuck

/-- Characters stripped by JavaScript `String.prototype.trim` (the ASCII
whitespace characters plus the common Unicode ones relevant here). -/
def jsIsWhitespace (c : Char) : Bool :=
  c = ' ' || c = '\t' || c = '\n' || c = '\r' || c = '\x0b' || c = '\x0c' ||
  c = ' ' || c = '﻿'

/-- JavaScript `String.prototype.trim`: drop whitespace from both ends. -/
def jsTrim (s : String) : String :=
  String.mk (((s.data.dropWhile jsIsWhitespace).reverse.dropWhile jsIsWhitespace).reverse)

/-- Replace the first occurrence of `pat` in the character list
(helper for `jsReplace`). -/
def replaceFirstAux (pat repl : List Char) : List Char → List Char
  | [] => if pat.isPrefixOf ([] : List Char) then repl else []
  | c :: rest =>
    if pat.isPrefixOf (c :: rest) then repl ++ (c :: rest).drop pat.length
    else c :: replaceFirstAux pat repl rest

/-- JavaScript `s.replace(pat, repl)` with a plain-string pattern:
only the first occurrence is replaced; `s` is returned unchanged when
`pat` does not occur in `s`. -/
def jsReplace (s pat repl : String) : String :=
  String.mk (replaceFirstAux pat.data repl.data s.data)

/-- Does `pat` occur as a contiguous sublist of `s`? -/
def occursIn (pat : List Char) : List Char → Bool
  | [] => pat.isPrefixOf ([] : List Char)
  | c :: rest => pat.isPrefixOf (c :: rest) || occursIn pat rest

/-- The process environment as read by the handlers: each variable is
`none` when unset. -/
structure Env where
  API_BEARER_TOKEN : Option String
  MOTHERDUCK_API_KEY : Option String
  MOTHERDUCK_DATABASE : Option String
deriving DecidableEq, Repr

/-- An incoming HTTP request; only `req.headers['authorization']` is
inspected by this repository's code (`none` = header absent). -/
structure Request where
  authorization : Option String
deriving DecidableEq, Repr

/-- JavaScript truthiness-based default `v || d` where `v` is an
environment variable: unset or empty falls back to `d`. -/
def jsOrDefault (v : Option String) (d : String) : String :=
  match v with
  | none => d
  | some s => if s = "" then d else s

/-- JavaScript falsiness of an environment variable: `!process.env.X`
is true exactly when the variable is unset or the empty string. -/
def envFalsy (v : Option String) : Bool :=
  match v with
  | none => true
  | some s => s = ""

/-- JavaScript strict equality `tok === expected` between the extracted
token (a string) and `process.env.API_BEARER_TOKEN` (string or
undefined): comparison with undefined is always false. -/
def strictEq (tok : String) (expected : Option String) : Bool :=
  match expected with
  | none => false
  | some e => tok = e

/-- The argument record `{req, res, token, database}` passed to
`startMotherDuckMCP` (the response object is owned by the delegate and
not modelled as data). -/
structure DelegateCall where
  req : Request
  token : Option String
  database : String
deriving DecidableEq, Repr

/-- Behaviour of one delegate invocation: it either completes the
response itself or throws an error with a message. -/
inductive DelegateResult where
  | completed : DelegateResult
  | threw (message : String) : DelegateResult
deriving DecidableEq, Repr

/-- A JSON error body written directly by this repository's code:
an `error` field and an optional `details` field. -/
structure ErrorBody where
  error : String
  details : Option String
deriving DecidableEq, Repr

/-- The observable end of a handler invocation: either this code wrote
a JSON response with a status, or the delegate completed the response. -/
inductive Outcome where
  | jsonResponse (status : Nat) (body : ErrorBody)
  | delegateCompleted : Outcome
deriving DecidableEq, Repr

/-- Result of running a handler: the list of delegate invocations made
(in order) and the final outcome. -/
structure HandlerResult where
  calls : List DelegateCall
  outcome : Outcome
deriving DecidableEq, Repr

/-- The argument record both handlers build for `startMotherDuckMCP`:
`token: process.env.MOTHERDUCK_API_KEY`,
`database: process.env.MOTHERDUCK_DATABASE || 'default'`. -/
def mkCall (env : Env) (req : Request) : DelegateCall :=
  { req := req
    token := env.MOTHERDUCK_API_KEY
    database := jsOrDefault env.MOTHERDUCK_DATABASE "default" }

/-- Token extraction of the secured handler, src/api/index.js lines 7-8:
`(req.headers['authorization'] || '').replace('Bearer ', '').trim()`. -/
def extractToken (authorization : Option String) : String :=
  jsTrim (jsReplace (authorization.getD "") "Bearer " "")

/-- The authorization condition of src/api/index.js line 9, negated:
the handler proceeds past the 401 check exactly when
`!(!token || token !== process.env.API_BEARER_TOKEN)`. -/
def authOk (env : Env) (req : Request) : Bool :=
  let token := extractToken req.authorization
  !(token = "") && strictEq token env.API_BEARER_TOKEN

/-- The secured handler of src/api/index.js: bearer-token check, then
the MOTHERDUCK_API_KEY presence check, then delegation; a delegate
throw is caught and mapped to 500 with a `details` field. -/
def securedHandler (env : Env) (delegate : DelegateCall → DelegateResult)
    (req : Request) : HandlerResult :=
  if !(authOk env req) then
    { calls := [], outcome := .jsonResponse 401 { error := "Unauthorized", details := none } }
  else if envFalsy env.MOTHERDUCK_API_KEY then
    { calls := [],
      outcome := .jsonResponse 500
        { error := "Missing MOTHERDUCK_API_KEY env var", details := none } }
  else
    let call := mkCall env req
    match delegate call with
    | .completed => { calls := [call], outcome := .delegateCompleted }
    | .threw msg =>
      { calls := [call],
        outcome := .jsonResponse 500
          { error := "Internal MCP Server Error", details := some msg } }

/-- The unsecured handler (src/unnamed/part_000): delegate immediately;
a delegate throw is caught and mapped to a fixed 500 body with no
`details` field. -/
def unsecuredHandler (env : Env) (delegate : DelegateCall → DelegateResult)
    (req : Request) : HandlerResult :=
  let call := mkCall env req
  match delegate call with
  | .completed => { calls := [call], outcome := .delegateCompleted }
  | .threw _ =>
    { calls := [call],
      outcome := .jsonResponse 500
        { error := "Internal MCP Server Error", details := none } }

/-- Replacing at a match that sits at the front: `replaceFirstAux` on
`pat ++ t` yields `repl ++ t`. -/
lemma replaceFirstAux_append (pat repl t : List Char) :
    replaceFirstAux pat repl (pat ++ t) = repl ++ t := by
  have hpre : pat.isPrefixOf (pat ++ t) = true :=
    List.isPrefixOf_iff_prefix.mpr (List.prefix_append pat t)
  rcases hpt : pat ++ t with _ | ⟨c, rest⟩
  · rcases List.append_eq_nil.mp hpt with ⟨hp, ht⟩
    subst hp; subst ht
    simp [replaceFirstAux, List.isPrefixOf]
  · rw [hpt] at hpre
    rw [replaceFirstAux, hpre]
    simp only [if_true, ← hpt, List.drop_left]

/-- When `pat` does not occur in `s`, `replaceFirstAux` leaves `s`
unchanged (the JavaScript `replace` no-op case). -/
lemma replaceFirstAux_no_occurrence (pat repl : List Char) :
    ∀ s : List Char, occursIn pat s = false → replaceFirstAux pat repl s = s := by
  intro s
  induction s with
  | nil =>
    intro h
    simp only [occursIn] at h
    simp [replaceFirstAux, h]
  | cons c rest ih =>
    intro h
    simp only [occursIn, Bool.or_eq_false_iff] at h
    simp [replaceFirstAux, h.1, ih h.2]

/-- The token extracted from an absent header is empty. -/
lemma extractToken_none : extractToken none = "" := rfl

/-- The authorization check fails whenever the extracted token is empty. -/
lemma authOk_of_empty_token (env : Env) (req : Request)
    (h : extractToken req.authorization = "") : authOk env req = false := by
  simp [authOk, h]

/-- The secured handler makes no delegate call and returns the fixed 401
response whenever the authorization check fails. -/
lemma securedHandler_of_authFail (env : Env)
    (delegate : DelegateCall → DelegateResult) (req : Request)
    (h : authOk env req = false) :
    securedHandler env delegate req
      = { calls := [],
          outcome := .jsonResponse 401 { error := "Unauthorized", details := none } } := by
  simp [securedHandler, h]

/-- The unsecured handler always makes exactly one delegate call, with
the record built from the environment. -/
lemma unsecuredHandler_calls (env : Env)
    (delegate : DelegateCall → DelegateResult) (req : Request) :
    (unsecuredHandler env delegate req).calls = [mkCall env req] := by
  cases hD : delegate (mkCall env req) <;> simp [unsecuredHandler, hD]

/-- The secured handler's call list is empty or the single record built
from the environment. -/
lemma securedHandler_calls (env : Env)
    (delegate : DelegateCall → DelegateResult) (req : Request) :
    (securedHandler env delegate req).calls = []
      ∨ (securedHandler env delegate req).calls = [mkCall env req] := by
  cases hA : authOk env req with
  | false => left; simp [securedHandler, hA]
  | true =>
    cases hK : envFalsy env.MOTHERDUCK_API_KEY with
    | true => left; simp [securedHandler, hA, hK]
    | false =>
      cases hD : delegate (mkCall env req) with
      | completed => right; simp [securedHandler, hA, hK, hD]
      | threw m => right; simp [securedHandler, hA, hK, hD]

/-- Token extraction as the spec sentence for C4 describes it: the
substring following a literal "Bearer " PREFIX of the Authorization
header, trimmed; the empty string when the header is absent, and no
token when the header does not start with the prefix.  This definition
follows the spec's words, to be compared with `extractToken`, which
follows the code. -/
def specDescribedToken (authorization : Option String) : String :=
  match authorization with
  | none => ""
  | some h =>
    if "Bearer ".data.isPrefixOf h.data then
      jsTrim (String.mk (h.data.drop "Bearer ".length))
    else ""

/-- C1: any request whose Authorization header is absent, or whose
extracted bearer token is empty or not strictly equal to
API_BEARER_TOKEN, is answered with 401 and the JSON body
error = "Unauthorized", and the delegate is never invoked. -/
theorem c1_invalid_token_gets_401 (env : Env)
    (delegate : DelegateCall → DelegateResult) (req : Request)
    (h : req.authorization = none
      ∨ extractToken req.authorization = ""
      ∨ strictEq (extractToken req.authorization) env.API_BEARER_TOKEN = false) :
    securedHandler env delegate req
      = { calls := [],
          outcome := .jsonResponse 401 { error := "Unauthorized", details := none } } := by
  apply securedHandler_of_authFail
  rcases h with h | h | h
  · exact authOk_of_empty_token env req (by rw [h]; rfl)
  · exact authOk_of_empty_token env req h
  · simp [authOk, h]

/-- Witness for C1 at a concrete input: the header is absent while both
secrets are configured. -/
theorem c1_witness :
    securedHandler ⟨some "t", some "k", none⟩ (fun _ => DelegateResult.completed) ⟨none⟩
      = { calls := [],
          outcome := .jsonResponse 401 { error := "Unauthorized", details := none } } :=
  c1_invalid_token_gets_401 _ _ _ (Or.inl rfl)

/-- Counterexample to C4 as stated: the header "abc123" does not start
with "Bearer ", so per the spec it should yield no token, but the code's
`replace` leaves a non-matching header unchanged and the comparison
token is "abc123", which is not empty. -/
theorem c4_counterexample :
    specDescribedToken (some "abc123") = ""
      ∧ extractToken (some "abc123") = "abc123"
      ∧ ("abc123" : String) ≠ "" := by
  refine ⟨rfl, rfl, by decide⟩

/-- Index of the first occurrence of `pat` as a contiguous sublist of
the given list, when one exists. -/
def firstMatchIndex (pat : List Char) : List Char → Option Nat
  | [] => if pat.isPrefixOf ([] : List Char) then some 0 else none
  | c :: rest =>
    if pat.isPrefixOf (c :: rest) then some 0
    else (firstMatchIndex pat rest).map (fun n => n + 1)

/-- Full characterization of `replaceFirstAux`: when `pat` has no
occurrence the list is unchanged; otherwise the characters of the first
occurrence — the one starting at the least index — are replaced by
`repl`. -/
lemma replaceFirstAux_eq_firstMatchIndex (pat repl : List Char) :
    ∀ s : List Char, replaceFirstAux pat repl s =
      match firstMatchIndex pat s with
      | none => s
      | some i => s.take i ++ repl ++ s.drop (i + pat.length) := by
  intro s
  induction s with
  | nil =>
    cases hp : pat.isPrefixOf ([] : List Char) with
    | true => simp [replaceFirstAux, firstMatchIndex, hp]
    | false => simp [replaceFirstAux, firstMatchIndex, hp]
  | cons c rest ih =>
    cases hp : pat.isPrefixOf (c :: rest) with
    | true => simp [replaceFirstAux, firstMatchIndex, hp]
    | false =>
      cases hf : firstMatchIndex pat rest with
      | none =>
        simp [hf] at ih
        simp [replaceFirstAux, firstMatchIndex, hp, hf, ih]
      | some i =>
        simp [hf] at ih
        have harith : i + 1 + pat.length = (i + pat.length) + 1 := by omega
        simp [replaceFirstAux, firstMatchIndex, hp, hf, ih, harith]

/-- Token extraction as the AMENDED C4 claim describes it: the
Authorization header with the first occurrence of the substring
"Bearer " removed — the header unchanged when "Bearer " does not occur
in it — then trimmed; the empty string when the header is absent.  This
definition follows the amended claim's words, to be compared with
`extractToken`, which follows the code. -/
def amendedDescribedToken (authorization : Option String) : String :=
  match authorization with
  | none => ""
  | some h =>
    match firstMatchIndex "Bearer ".data h.data with
    | none => jsTrim h
    | some i =>
      jsTrim (String.mk (h.data.take i ++ h.data.drop (i + "Bearer ".data.length)))

/-- C4 amended: on every request the comparison token is the
Authorization header with the first occurrence of the substring
"Bearer " removed — at whatever position it starts, the header
unchanged when "Bearer " does not occur in it — then trimmed; the empty
string when the header is absent.  In particular a header of the form
"Bearer " ++ t yields the trimmed t, and a header in which "Bearer "
does not occur yields the whole header trimmed. -/
theorem c4_token_extraction_amended :
    (∀ a : Option String, extractToken a = amendedDescribedToken a)
      ∧ (∀ t : String, extractToken (some ("Bearer " ++ t)) = jsTrim t)
      ∧ (∀ h : String, occursIn "Bearer ".data h.data = false →
          extractToken (some h) = jsTrim h) := by
  refine ⟨?_, ?_, ?_⟩
  · intro a
    cases a with
    | none => rfl
    | some h =>
      have key : jsReplace h "Bearer " "" =
          match firstMatchIndex "Bearer ".data h.data with
          | none => h
          | some i =>
            String.mk (h.data.take i ++ h.data.drop (i + "Bearer ".data.length)) := by
        unfold jsReplace
        rw [replaceFirstAux_eq_firstMatchIndex]
        cases hf : firstMatchIndex "Bearer ".data h.data with
        | none => rfl
        | some i => simp
      show jsTrim (jsReplace h "Bearer " "") =
        match firstMatchIndex "Bearer ".data h.data with
        | none => jsTrim h
        | some i =>
          jsTrim (String.mk (h.data.take i ++ h.data.drop (i + "Bearer ".data.length)))
      rw [key]
      cases hf : firstMatchIndex "Bearer ".data h.data with
      | none => rfl
      | some i => rfl
  · intro t
    have hrepl : jsReplace ("Bearer " ++ t) "Bearer " "" = t := by
      unfold jsReplace
      rw [String.data_append, replaceFirstAux_append]
      rfl
    simp [extractToken, hrepl]
  · intro h hocc
    have hrepl : jsReplace h "Bearer " "" = h := by
      unfold jsReplace
      rw [replaceFirstAux_no_occurrence _ _ _ hocc]
    simp [extractToken, hrepl]

/-- Witness for C4 amended at concrete inputs: a header with a
mid-string occurrence of "Bearer ", one with the "Bearer " prefix, and
one in which "Bearer " does not occur. -/
theorem c4_witness :
    extractToken (some "x Bearer y") = amendedDescribedToken (some "x Bearer y")
      ∧ extractToken (some ("Bearer " ++ " abc123  ")) = jsTrim " abc123  "
      ∧ occursIn "Bearer ".data "abc123".data = false
      ∧ extractToken (some "abc123") = jsTrim "abc123" :=
  ⟨c4_token_extraction_amended.1 (some "x Bearer y"),
    c4_token_extraction_amended.2.1 " abc123  ",
    by decide,
    c4_token_extraction_amended.2.2 "abc123" (by decide)⟩

/-- A delegate that always completes the response (used for concrete
scenarios). -/
def delegateAlwaysCompletes : DelegateCall → DelegateResult :=
  fun _ => DelegateResult.completed

/-- Counterexample to C2 as stated, in two concrete scenarios.  First:
with MOTHERDUCK_DATABASE set (to the empty string) and a valid token,
the delegate receives database "default", not the value MOTHERDUCK_DATABASE
holds.  Second: with API_BEARER_TOKEN set to the empty string, a request
whose extracted token is exactly equal to it is still rejected with no
delegate call, because the handler first requires a non-empty token. -/
theorem c2_counterexample :
    ((⟨some "t", some "k", some ""⟩ : Env).MOTHERDUCK_DATABASE = some ""
      ∧ (securedHandler ⟨some "t", some "k", some ""⟩ delegateAlwaysCompletes
          ⟨some "Bearer t"⟩).calls.map (fun c => c.database) = ["default"]
      ∧ ("default" : String) ≠ "")
    ∧ (extractToken (some "") = ""
      ∧ strictEq (extractToken (some "")) (some "") = true
      ∧ envFalsy (some "k") = false
      ∧ (securedHandler ⟨some "", some "k", none⟩ delegateAlwaysCompletes
          ⟨some ""⟩).calls = []) := by
  refine ⟨⟨rfl, by decide, by decide⟩, ⟨rfl, by decide, rfl, by decide⟩⟩

/-- C2 amended: for every request carrying a NON-EMPTY token exactly
equal to API_BEARER_TOKEN, with MOTHERDUCK_API_KEY set non-empty, the
delegate is invoked exactly once, with token equal to
MOTHERDUCK_API_KEY and database equal to MOTHERDUCK_DATABASE when that
variable is set to a non-empty value, and "default" when it is unset OR
set to the empty string. -/
theorem c2_valid_token_delegates_amended (env : Env)
    (delegate : DelegateCall → DelegateResult) (req : Request) (tok : String)
    (hset : env.API_BEARER_TOKEN = some tok) (hne : tok ≠ "")
    (htok : extractToken req.authorization = tok)
    (hkey : envFalsy env.MOTHERDUCK_API_KEY = false) :
    (securedHandler env delegate req).calls
      = [{ req := req
           token := env.MOTHERDUCK_API_KEY
           database :=
             match env.MOTHERDUCK_DATABASE with
             | none => "default"
             | some d => if d = "" then "default" else d }] := by
  have hauth : authOk env req = true := by
    simp [authOk, htok, hset, strictEq, hne]
  show (securedHandler env delegate req).calls = [mkCall env req]
  cases hD : delegate (mkCall env req) with
  | completed => simp [securedHandler, hauth, hkey, hD]
  | threw m => simp [securedHandler, hauth, hkey, hD]

/-- Witness for C2 amended at a concrete input: valid token "t",
API key "k", database variable set to "mydb". -/
theorem c2_witness :
    (securedHandler ⟨some "t", some "k", some "mydb"⟩ delegateAlwaysCompletes
        ⟨some "Bearer t"⟩).calls
      = [{ req := ⟨some "Bearer t"⟩, token := some "k", database := "mydb" }] :=
  c2_valid_token_delegates_amended ⟨some "t", some "k", some "mydb"⟩
    delegateAlwaysCompletes ⟨some "Bearer t"⟩ "t" rfl (by decide) (by decide) rfl

/-- Counterexample to C3 as stated: MOTHERDUCK_API_KEY is unset and the
request carries an invalid token (no header), yet the response is the
401 Unauthorized one, not the 500 missing-env-var one — the
authorization check runs first, so "regardless of token validity" fails. -/
theorem c3_counterexample :
    securedHandler ⟨some "t", none, none⟩ delegateAlwaysCompletes ⟨none⟩
      = { calls := [],
          outcome := .jsonResponse 401 { error := "Unauthorized", details := none } }
    ∧ (Outcome.jsonResponse 401 { error := "Unauthorized", details := none }
        ≠ Outcome.jsonResponse 500
            { error := "Missing MOTHERDUCK_API_KEY env var", details := none }) := by
  exact ⟨by decide, by decide⟩

/-- C3 amended: for every request that PASSES the authorization check,
if MOTHERDUCK_API_KEY is unset or empty the handler responds 500 with
the missing-env-var body and the delegate is never invoked. -/
theorem c3_missing_key_amended (env : Env)
    (delegate : DelegateCall → DelegateResult) (req : Request)
    (hauth : authOk env req = true)
    (hkey : envFalsy env.MOTHERDUCK_API_KEY = true) :
    securedHandler env delegate req
      = { calls := [],
          outcome := .jsonResponse 500
            { error := "Missing MOTHERDUCK_API_KEY env var", details := none } } := by
  simp [securedHandler, hauth, hkey]

/-- Witness for C3 amended at a concrete input: valid token "t",
MOTHERDUCK_API_KEY unset. -/
theorem c3_witness :
    securedHandler ⟨some "t", none, none⟩ delegateAlwaysCompletes ⟨some "Bearer t"⟩
      = { calls := [],
          outcome := .jsonResponse 500
            { error := "Missing MOTHERDUCK_API_KEY env var", details := none } } :=
  c3_missing_key_amended ⟨some "t", none, none⟩ delegateAlwaysCompletes
    ⟨some "Bearer t"⟩ (by decide) rfl

/-- A delegate that always throws with message "boom" (used for
concrete scenarios). -/
def delegateAlwaysThrowsBoom : DelegateCall → DelegateResult :=
  fun _ => DelegateResult.threw "boom"

/-- C5: when the delegate throws, the unsecured handler responds 500
with the fixed body error = "Internal MCP Server Error" (no details);
the secured handler, on a request that reached delegation, responds 500
with the same error field plus details equal to the thrown message. -/
theorem c5_delegate_throw_maps_to_500 (env : Env)
    (delegate : DelegateCall → DelegateResult) (req : Request) (msg : String)
    (hthrow : delegate (mkCall env req) = DelegateResult.threw msg) :
    (unsecuredHandler env delegate req).outcome
        = Outcome.jsonResponse 500
            { error := "Internal MCP Server Error", details := none }
      ∧ (authOk env req = true → envFalsy env.MOTHERDUCK_API_KEY = false →
          (securedHandler env delegate req).outcome
            = Outcome.jsonResponse 500
                { error := "Internal MCP Server Error", details := some msg }) := by
  constructor
  · simp [unsecuredHandler, hthrow]
  · intro hauth hkey
    simp [securedHandler, hauth, hkey, hthrow]

/-- Witness for C5 at a concrete input: a delegate that throws "boom",
valid token "t", API key "k". -/
theorem c5_witness :
    (unsecuredHandler ⟨some "t", some "k", none⟩ delegateAlwaysThrowsBoom
        ⟨some "Bearer t"⟩).outcome
      = Outcome.jsonResponse 500
          { error := "Internal MCP Server Error", details := none }
    ∧ (securedHandler ⟨some "t", some "k", none⟩ delegateAlwaysThrowsBoom
        ⟨some "Bearer t"⟩).outcome
      = Outcome.jsonResponse 500
          { error := "Internal MCP Server Error", details := some "boom" } :=
  ⟨(c5_delegate_throw_maps_to_500 ⟨some "t", some "k", none⟩
      delegateAlwaysThrowsBoom ⟨some "Bearer t"⟩ "boom" rfl).1,
    (c5_delegate_throw_maps_to_500 ⟨some "t", some "k", none⟩
      delegateAlwaysThrowsBoom ⟨some "Bearer t"⟩ "boom" rfl).2 (by decide) rfl⟩

/-- C6: with no environment variables set, the unsecured handler
performs no local validation and invokes the delegate with
token undefined (none) and database "default". -/
theorem c6_unsecured_passthrough (delegate : DelegateCall → DelegateResult)
    (req : Request) :
    (unsecuredHandler ⟨none, none, none⟩ delegate req).calls
      = [{ req := req, token := none, database := "default" }] :=
  unsecuredHandler_calls ⟨none, none, none⟩ delegate req

/-- C7: with API_BEARER_TOKEN = "abc123", the header
"Bearer  abc123  " (extra surrounding whitespace) passes the trimmed
comparison and the request proceeds past the authorization check — no
401 is produced. -/
theorem c7_whitespace_token_proceeds :
    authOk ⟨some "abc123", some "k", none⟩ ⟨some "Bearer  abc123  "⟩ = true
      ∧ (securedHandler ⟨some "abc123", some "k", none⟩ delegateAlwaysCompletes
          ⟨some "Bearer  abc123  "⟩).outcome
        ≠ Outcome.jsonResponse 401 { error := "Unauthorized", details := none } := by
  exact ⟨by decide, by decide⟩

/-- The secured handler answers with the 401 Unauthorized response
exactly when the authorization check fails, whatever the delegate
does. -/
lemma securedHandler_401_iff (env : Env)
    (d : DelegateCall → DelegateResult) (r : Request) :
    (securedHandler env d r).outcome
        = Outcome.jsonResponse 401 { error := "Unauthorized", details := none }
      ↔ authOk env r = false := by
  cases hA : authOk env r with
  | false => simp [securedHandler_of_authFail env d r hA]
  | true =>
    cases hK : envFalsy env.MOTHERDUCK_API_KEY with
    | true => simp [securedHandler, hA, hK]
    | false =>
      cases hD : d (mkCall env r) with
      | completed => simp [securedHandler, hA, hK, hD]
      | threw m => simp [securedHandler, hA, hK, hD]

/-- C8: the authorization decision is a deterministic function of the
Authorization header and the environment — two requests with the same
header get the same decision, the secured handler produces the 401
response exactly when that decision is negative, and two invocations
with the same header (whatever their delegates) agree on the 401
outcome. -/
theorem c8_auth_deterministic (env : Env)
    (d1 d2 : DelegateCall → DelegateResult) (r1 r2 : Request)
    (h : r1.authorization = r2.authorization) :
    authOk env r1 = authOk env r2
      ∧ ((securedHandler env d1 r1).outcome
            = Outcome.jsonResponse 401 { error := "Unauthorized", details := none }
          ↔ authOk env r1 = false)
      ∧ ((securedHandler env d1 r1).outcome
            = Outcome.jsonResponse 401 { error := "Unauthorized", details := none }
          ↔ (securedHandler env d2 r2).outcome
            = Outcome.jsonResponse 401 { error := "Unauthorized", details := none }) := by
  have hsame : authOk env r1 = authOk env r2 := by
    unfold authOk
    rw [h]
  refine ⟨hsame, securedHandler_401_iff env d1 r1, ?_⟩
  rw [securedHandler_401_iff, securedHandler_401_iff, hsame]

/-- Witness for C8 at concrete inputs: equal headers, different
delegates. -/
theorem c8_witness :
    authOk ⟨some "t", some "k", none⟩ ⟨some "Bearer t"⟩
        = authOk ⟨some "t", some "k", none⟩ ⟨some "Bearer t"⟩
      ∧ ((securedHandler ⟨some "t", some "k", none⟩ delegateAlwaysCompletes
            ⟨some "Bearer t"⟩).outcome
          = Outcome.jsonResponse 401 { error := "Unauthorized", details := none }
        ↔ authOk ⟨some "t", some "k", none⟩ ⟨some "Bearer t"⟩ = false)
      ∧ ((securedHandler ⟨some "t", some "k", none⟩ delegateAlwaysCompletes
            ⟨some "Bearer t"⟩).outcome
          = Outcome.jsonResponse 401 { error := "Unauthorized", details := none }
        ↔ (securedHandler ⟨some "t", some "k", none⟩ delegateAlwaysThrowsBoom
            ⟨some "Bearer t"⟩).outcome
          = Outcome.jsonResponse 401 { error := "Unauthorized", details := none }) :=
  c8_auth_deterministic ⟨some "t", some "k", none⟩ delegateAlwaysCompletes
    delegateAlwaysThrowsBoom ⟨some "Bearer t"⟩ ⟨some "Bearer t"⟩ rfl

/-- C9: when API_BEARER_TOKEN is unset, every request is rejected with
401 and the delegate is never invoked — an empty token fails the
non-emptiness check and a non-empty token never strictly equals
undefined. -/
theorem c9_unset_secret_rejects_all (env : Env)
    (delegate : DelegateCall → DelegateResult) (req : Request)
    (h : env.API_BEARER_TOKEN = none) :
    securedHandler env delegate req
      = { calls := [],
          outcome := .jsonResponse 401 { error := "Unauthorized", details := none } } := by
  apply securedHandler_of_authFail
  simp [authOk, strictEq, h]

/-- Witness for C9 at a concrete input: no API_BEARER_TOKEN, a request
that does carry a bearer token. -/
theorem c9_witness :
    securedHandler ⟨none, some "k", none⟩ delegateAlwaysCompletes ⟨some "Bearer t"⟩
      = { calls := [],
          outcome := .jsonResponse 401 { error := "Unauthorized", details := none } } :=
  c9_unset_secret_rejects_all ⟨none, some "k", none⟩ delegateAlwaysCompletes
    ⟨some "Bearer t"⟩ rfl

/-- C10: when MOTHERDUCK_DATABASE is set to the empty string, the
delegate-call record carries database "default" in both handlers,
exactly as when the variable is unset. -/
theorem c10_empty_database_defaults (env : Env)
    (delegate : DelegateCall → DelegateResult) (req : Request)
    (h : env.MOTHERDUCK_DATABASE = some "") :
    (mkCall env req).database = "default"
      ∧ mkCall env req = mkCall { env with MOTHERDUCK_DATABASE := none } req
      ∧ ((securedHandler env delegate req).calls.all
          (fun c => c.database == "default")) = true
      ∧ ((unsecuredHandler env delegate req).calls.all
          (fun c => c.database == "default")) = true := by
  have hdb : (mkCall env req).database = "default" := by
    simp [mkCall, jsOrDefault, h]
  refine ⟨hdb, ?_, ?_, ?_⟩
  · simp [mkCall, jsOrDefault, h]
  · rcases securedHandler_calls env delegate req with hc | hc <;> simp [hc, hdb]
  · simp [unsecuredHandler_calls, hdb]

/-- Witness for C10 at a concrete input: MOTHERDUCK_DATABASE set to the
empty string, valid token. -/
theorem c10_witness :
    (mkCall ⟨some "t", some "k", some ""⟩ ⟨some "Bearer t"⟩).database = "default"
      ∧ mkCall ⟨some "t", some "k", some ""⟩ ⟨some "Bearer t"⟩
          = mkCall ⟨some "t", some "k", none⟩ ⟨some "Bearer t"⟩
      ∧ ((securedHandler ⟨some "t", some "k", some ""⟩ delegateAlwaysCompletes
          ⟨some "Bearer t"⟩).calls.all (fun c => c.database == "default")) = true
      ∧ ((unsecuredHandler ⟨some "t", some "k", some ""⟩ delegateAlwaysCompletes
          ⟨some "Bearer t"⟩).calls.all (fun c => c.database == "default")) = true :=
  c10_empty_database_defaults ⟨some "t", some "k", some ""⟩
    delegateAlwaysCompletes ⟨some "Bearer t"⟩ rfl

end MotherDuck
